import Mathlib

/-!
# Verification of the `curate` content-aggregation pipeline

Shallow embedding of the decision logic of `curate` (paper summarizer and
reddit explorer) and proofs about it.

Python strings are modelled as `List Char` (a Python `str` is a sequence of
Unicode code points); the helpers below embed the Python string operations
the source uses (`strip`, `lower`, `in`, `replace` with a one-character
pattern, `splitlines`, `"\n".join`).  The filesystem is modelled as a map
from path keys to optional file contents.
-/

/-- A Python `str`: a sequence of Unicode code points. -/
abbrev PyStr := List Char

/-- `needle` starts the list `hay` (`hay[:len(needle)] == needle`). -/
def listStartsWith : PyStr → PyStr → Bool
  | [], _ => true
  | _ :: _, [] => false
  | p :: ps, c :: cs => p == c && listStartsWith ps cs

/-- Python's substring test `sub in hay`. -/
def listContainsSub (sub : PyStr) : PyStr → Bool
  | [] => sub.isEmpty
  | c :: cs => listStartsWith sub (c :: cs) || listContainsSub sub cs

/-- Python's `str.strip()`: drop leading and trailing whitespace. -/
def pstrip (s : PyStr) : PyStr :=
  ((s.dropWhile Char.isWhitespace).reverse.dropWhile Char.isWhitespace).reverse

/-- Python's `str.lower()` (code-point-wise lowering; the keywords the
source compares against are ASCII). -/
def plower (s : PyStr) : PyStr :=
  s.map Char.toLower

/-- Python's `str.replace(a, b)` specialised to the one-character pattern
and one-character replacement the source uses (`line.replace("Â", " ")`). -/
def replaceChar (a b : Char) (s : PyStr) : PyStr :=
  s.map (fun c => if c = a then b else c)

/-- The line-boundary characters of Python's `str.splitlines()`:
LF, CR, VT (`\x0B`), FF (`\x0C`), FS/GS/RS (`\x1C`-`\x1E`), NEL
(`\x85`), LINE SEPARATOR (`\u2028`) and PARAGRAPH SEPARATOR
(`\u2029`). -/
def isLineBoundary (c : Char) : Bool :=
  c == '\n' || c == '\r' || c == '\x0B' || c == '\x0C' || c == '\x1C' ||
  c == '\x1D' || c == '\x1E' || c == '\x85' || c == '\u2028' || c == '\u2029'

/-- Python's `str.splitlines()`: split at every line-boundary character,
`"\r\n"` counting as a single boundary, with no entry for a trailing
boundary and `"".splitlines() == []`.  The universal-newline translation
performed by the text-mode read in `_load_old_arxiv_ids` (`"\r\n"` and
`"\r"` become `"\n"`) maps every content to one with the same
`splitlines` image, so it needs no separate model. -/
def splitlines : PyStr → List PyStr
  | [] => []
  | [c] => if isLineBoundary c then [[]] else [[c]]
  | c :: c2 :: cs =>
    if c = '\r' ∧ c2 = '\n' then [] :: splitlines cs
    else if isLineBoundary c then [] :: splitlines (c2 :: cs)
    else
      match splitlines (c2 :: cs) with
      | [] => [[c]]
      | l :: ls => (c :: l) :: ls

/-- Python's `"\n".join(xs)`. -/
def joinNL : List PyStr → PyStr
  | [] => []
  | [x] => x
  | x :: xs => x ++ '\n' :: joinNL xs

/-- The keyword blacklist of `PaperSummarizer._is_valid_body_line`. -/
def bodyLineKeywords : List PyStr :=
  [['u','n','i','v','e','r','s','i','t','y'],
   ['l','a','b'],
   ['d','e','p','a','r','t','m','e','n','t'],
   ['i','n','s','t','i','t','u','t','e'],
   ['c','o','r','r','e','s','p','o','n','d','i','n','g',' ','a','u','t','h','o','r']]

/-- `PaperSummarizer._is_valid_body_line(line, min_length)`: reject lines
with `"@"`, lines whose lowering contains a blacklist keyword, and short
lines; the final branch returns `False` when `"."` is absent and `True`
otherwise. -/
def is_valid_body_line (line : PyStr) (min_length : Nat) : Bool :=
  if listContainsSub ['@'] line then false
  else if bodyLineKeywords.any (fun kw => listContainsSub kw (plower line)) then false
  else if line.length < min_length then false
  else if !listContainsSub ['.'] line then false
  else true

/-- The body-start scan of `PaperSummarizer._extract_body_text`:
`start_index = 0; for i, line: clean = line.strip(); skip if
len(clean) < min_line_length; if _is_valid_body_line(clean, 100):
start_index = i; break`.  `i` is the absolute index of the head of
`lines`. -/
def findStartAux (min_line_length : Nat) : List PyStr → Nat → Nat
  | [], _ => 0
  | l :: ls, i =>
    if (pstrip l).length < min_line_length then findStartAux min_line_length ls (i + 1)
    else if is_valid_body_line (pstrip l) 100 then i
    else findStartAux min_line_length ls (i + 1)

/-- The filtering loop of `_extract_body_text`: keep lines whose stripped
length reaches `min_line_length`, strip them, replace `"Â"` by a space and
strip again. -/
def extract_body_lines (min_line_length : Nat) (lines : List PyStr) : List PyStr :=
  (lines.drop (findStartAux min_line_length lines 0)).filterMap fun line =>
    if min_line_length ≤ (pstrip line).length then
      some (pstrip (replaceChar 'Â' ' ' (pstrip line)))
    else none

/-- `_extract_body_text` from the extracted full text onward (the default
`min_line_length = 40`): split into lines, locate the body start, filter
and clean, join with newlines. -/
def extract_body_text_from (full_text : PyStr) : PyStr :=
  joinNL (extract_body_lines 40 (splitlines full_text))

/-- An element of the fetched HTML body, as far as `_extract_body_text`
inspects it: a tag name and its text content.  Models the BeautifulSoup
tree the source walks with `find_all` / `decompose` / `get_text`. -/
structure HtmlElement where
  tag : String
  text : PyStr
deriving DecidableEq

/-- The tags `_extract_body_text` decomposes before collecting text. -/
def strippedTags : List String := ["header", "nav", "footer", "script", "style"]

/-- `body.get_text(separator="\n", strip=True)`: each element's text is
stripped and empty segments are dropped, the rest joined with `"\n"`. -/
def get_text_strip (elems : List HtmlElement) : PyStr :=
  joinNL (((elems.map (fun e => pstrip e.text)).filter (fun t => !t.isEmpty)))

/-- `PaperSummarizer._extract_body_text` on a fetched document: `soup.body`
is `none` when the document has no body (`full_text = ""`); otherwise the
boilerplate tags are decomposed and the remaining text collected. -/
def extract_body_text (body : Option (List HtmlElement)) : PyStr :=
  let full_text :=
    match body with
    | some elems => get_text_strip (elems.filter (fun e => !strippedTags.contains e.tag))
    | none => []
  extract_body_text_from full_text

/-! ## Identifier deduplication and the rolling history window -/

/-- `PaperSummarizer._remove_duplicates(new_arxiv_ids)`:
`list(set(new_arxiv_ids) - set(self._old_arxiv_ids))`.  The iteration
order of a Python `set` is unspecified; the embedding fixes first-seen
order, membership being the specified behaviour. -/
def remove_duplicates (new_arxiv_ids old_arxiv_ids : List PyStr) : List PyStr :=
  (new_arxiv_ids.filter (fun x => !old_arxiv_ids.contains x)).dedup

/-- The flat-file store keyed by day number: `fileStore d` is the content
of `arxiv_ids-<date>.txt` for day `d` (`none` when the file is missing,
raising `FileNotFoundError` on open). -/
abbrev FileStore := Int → Option PyStr

/-- `PaperSummarizer._save_arxiv_ids(new_arxiv_ids)`: write
`"\n".join(new_arxiv_ids)` to today's id file, truncating any prior
content. -/
def save_arxiv_ids (store : FileStore) (today : Int) (new_arxiv_ids : List PyStr) :
    FileStore :=
  fun d => if d = today then some (joinNL new_arxiv_ids) else store d

/-- The per-day read of `_load_old_arxiv_ids`: `f.read().splitlines()` when
the file exists, and the silently-skipped `FileNotFoundError` branch
contributing nothing when it does not. -/
def readDayIds (store : FileStore) (d : Int) : List PyStr :=
  match store d with
  | some content => splitlines content
  | none => []

/-- `PaperSummarizer._load_old_arxiv_ids()`: `for i in range(1, 8)` extend
the accumulator with the id file of `today - i` days, skipping missing
files. -/
def load_old_arxiv_ids (store : FileStore) (today : Int) : List PyStr :=
  (List.range 7).foldl
    (fun (acc : List PyStr) (i : Nat) =>
      match store (today - ((i : Int) + 1)) with
      | some content => acc ++ splitlines content
      | none => acc)
    []

/-! ## Fan-out summarization driver -/

/-- The driver `list(executor.map(self._process_paper, new_arxiv_ids))`
with `ThreadPoolExecutor`: each input index is dispatched to a worker and
completes in some arbitrary order `order`; `executor.map` hands results
back in input-index order.  `completedResults` is the pool's completion
log: the pairs `(i, f items[i])` in completion order. -/
def completedResults {α β : Type} (items : List α) (f : α → β) (order : List Nat) :
    List (Nat × β) :=
  order.filterMap fun i => (items.get? i).map (fun x => (i, f x))

/-- The result list the driver returns: for each input index in order, the
completed result with that index. -/
def fanOutRun {α β : Type} (items : List α) (f : α → β) (order : List Nat) :
    List β :=
  (List.range items.length).filterMap fun i =>
    (completedResults items f order).lookup i

/-! ## Digest writer -/

/-- The dated-file write both `_store_summaries` methods perform: join the
summaries with the separator and write the result as the complete content
of the digest path, truncating whatever was there. -/
def digest_write (fs : String → Option String) (path separator : String)
    (summaries : List String) : String → Option String :=
  fun p => if p = path then some (String.intercalate separator summaries) else fs p

/-- `Config.summary_index_s3_key_format.format(date=date_str)` of the
paper summarizer. -/
def paper_summary_key (date_str : String) : String :=
  "paper_summarizer/" ++ date_str ++ ".md"

/-- `PaperSummarizer._store_summaries`: separator `"\n\n---\n\n"`. -/
def paper_store_summaries (fs : String → Option String) (date_str : String)
    (summaries : List String) : String → Option String :=
  digest_write fs (paper_summary_key date_str) "\n\n---\n\n" summaries

/-- `RedditExplorer._store_summaries`: separator `"\n---\n"`, key
`reddit_explorer/<date>.md`. -/
def reddit_store_summaries (fs : String → Option String) (date_str : String)
    (summaries : List String) : String → Option String :=
  digest_write fs ("reddit_explorer/" ++ date_str ++ ".md") "\n---\n" summaries

/-! ## Top-level entry points

A Python statement either produces a value or raises; a reference to a
name that is neither a builtin nor bound at module scope raises
`NameError` at the point of use. -/

/-- Outcome of running a Python callable: a returned value or an escaped
exception. -/
inductive PyOutcome (α : Type) : Type
  | ok (a : α) : PyOutcome α
  | exc (message : String) : PyOutcome α
deriving DecidableEq

/-- The builtins the two `lambda_handler` bodies reach for. -/
def pyBuiltins : List String := ["print", "dict", "list", "set", "len"]

/-- Module-scope names of `paper_summarizer.py`, transcribed from the
imported modules and names (concurrent.futures, inspect, os, re,
dataclass and field, date and timedelta, Any, arxiv, requests,
BeautifulSoup, tqdm, create_client) and the classes/functions defined in
the module.  Neither `pprint` nor `traceback` is imported. -/
def paperModuleGlobals : List String :=
  ["concurrent", "inspect", "os", "re", "dataclass", "field", "date",
   "timedelta", "Any", "arxiv", "requests", "BeautifulSoup", "tqdm",
   "create_client", "Config", "remove_tex_backticks",
   "remove_outer_markdown_markers", "remove_outer_singlequotes",
   "PaperInfo", "PaperIdRetriever", "PaperSummarizer", "lambda_handler"]

/-- Module-scope names of `reddit_explorer.py`, transcribed from the
imported modules and names (inspect, os, tomllib, dataclass and field,
date, Any and Literal, praw, create_client) and the module's own
definitions.  `traceback` is not imported. -/
def redditModuleGlobals : List String :=
  ["inspect", "os", "tomllib", "dataclass", "field", "date", "Any",
   "Literal", "praw", "create_client", "_MARKDOWN_FORMAT", "Config",
   "RedditPost", "RedditExplorer", "lambda_handler"]

/-- Name resolution inside a handler body: builtins and module globals
resolve; anything else raises `NameError`. -/
def resolves (moduleGlobals : List String) (name : String) : Bool :=
  pyBuiltins.contains name || moduleGlobals.contains name

/-- `paper_summarizer.lambda_handler(event, context)`.  `run` is the
outcome of `PaperSummarizer()` construction plus `paper_summarizer_()`
(the pipeline run), performed only when `event.get("source") ==
"aws.events"`.  The body calls `pprint(event)` before the `try` block and
`pprint(traceback.format_exc())` inside the `except` block. -/
def paper_lambda_handler (eventSource : Option String) (run : PyOutcome Unit) :
    PyOutcome Nat :=
  if !resolves paperModuleGlobals "pprint" then .exc "NameError: name pprint is not defined"
  else
    let tryBlock : PyOutcome Nat :=
      if eventSource = some "aws.events" then
        match run with
        | .ok _ => .ok 200
        | .exc e => .exc e
      else .ok 200
    match tryBlock with
    | .ok status => .ok status
    | .exc _ =>
      if !resolves paperModuleGlobals "pprint" then
        .exc "NameError: name pprint is not defined"
      else if !resolves paperModuleGlobals "traceback" then
        .exc "NameError: name traceback is not defined"
      else .ok 500

/-- `reddit_explorer.lambda_handler(event, context)`.  The body calls the
builtin `print(event)` first, and `print(traceback.format_exc())` inside
the `except` block. -/
def reddit_lambda_handler (eventSource : Option String) (run : PyOutcome Unit) :
    PyOutcome Nat :=
  if !resolves redditModuleGlobals "print" then .exc "NameError: name print is not defined"
  else
    let tryBlock : PyOutcome Nat :=
      if eventSource = some "aws.events" then
        match run with
        | .ok _ => .ok 200
        | .exc e => .exc e
      else .ok 200
    match tryBlock with
    | .ok status => .ok status
    | .exc _ =>
      if !resolves redditModuleGlobals "traceback" then
        .exc "NameError: name traceback is not defined"
      else .ok 500

/-! ## Reddit explorer: hot-post retrieval -/

/-- A `praw` submission, as far as `_retrieve_hot_posts`,
`__judge_post_type` and `_get_video_url` inspect it.  `getattr` defaults
are folded into the field values; `hasattr` probes become `has_*` flags.
The IEEE-754 `upvote_ratio` is modelled as an exact rational. -/
structure SubmissionM where
  post_hint : String
  is_gallery : Bool
  is_video : Bool
  has_poll_data : Bool
  has_crosspost_parent : Bool
  is_self : Bool
  author_name : String
  title : String
  url : String
  ups : Int
  upvote_ratio : ℚ
  id : String
  selftext : String
  thumbnail : String
  permalink : String
  has_media : Bool
  media_reddit_video_fallback_url : Option String
  has_secure_media : Bool
  secure_media_reddit_video_fallback_url : Option String
deriving DecidableEq

/-- The `RedditPost` dataclass fields set by `_retrieve_hot_posts`
(`comments` and `summary` are attached later and are not modelled). -/
structure RedditPostM where
  type : String
  id : String
  title : String
  url : Option String
  upvotes : Int
  text : String
  permalink : String
  thumbnail : String
deriving DecidableEq

/-- `RedditExplorer.__judge_post_type(post)`. -/
def judge_post_type (post : SubmissionM) : String :=
  if post.post_hint = "image" then "image"
  else if post.is_gallery then "gallery"
  else if post.is_video then "video"
  else if post.has_poll_data then "poll"
  else if post.has_crosspost_parent then "crosspost"
  else if post.is_self then "text"
  else "link"

/-- `RedditExplorer._get_video_url(post)`. -/
def get_video_url (post : SubmissionM) : Option String :=
  if post.has_media then post.media_reddit_video_fallback_url
  else if post.has_secure_media then post.secure_media_reddit_video_fallback_url
  else none

/-- Python's case-insensitive-by-construction test
`"megathread" in post.title.lower()`. -/
def titleHasMegathread (title : String) : Bool :=
  listContainsSub ['m','e','g','a','t','h','r','e','a','d'] (plower title.toList)

/-- The `RedditPost(...)` construction plus the `posts[-1].permalink`
assignment at the end of the loop body. -/
def buildRedditPost (post : SubmissionM) (post_type : String) (url : Option String) :
    RedditPostM :=
  { type := post_type
    id := post.id
    title := post.title
    url := url
    upvotes := post.ups
    text := post.selftext
    permalink := "https://www.reddit.com" ++ post.permalink
    thumbnail := post.thumbnail }

/-- `RedditExplorer._retrieve_hot_posts(subreddit, limit)`.  `listing` is
the subreddit's hot listing; `self._reddit.subreddit(...).hot(limit=limit)`
yields at most `limit` of it, in order.  Each post is classified, then the
four filters run in source order. -/
def retrieve_hot_posts (listing : List SubmissionM) (limit : Nat) : List RedditPostM :=
  (listing.take limit).filterMap fun post =>
    let post_type := judge_post_type post
    let url := if post_type = "video" then get_video_url post else some post.url
    if post.author_name = "AutoModerator" then none
    else if titleHasMegathread post.title then none
    else if post.upvote_ratio < (7 : ℚ) / 10 then none
    else if ["gallery", "poll", "crosspost"].contains post_type then none
    else some (buildRedditPost post post_type url)

/-- `Config.reddit_top_posts_limit`. -/
def reddit_top_posts_limit : Nat := 10

/-! ## Concrete inputs used by counterexamples and witnesses -/

/-- A 100-character line with a period, no `"@"` and no blacklisted
keyword: it meets every qualification criterion of the body-start scan. -/
def qualifyingLine : PyStr := List.replicate 99 'a' ++ ['.']

/-- A 50-character line without a period: it passes the 40-character
filter but not the qualification predicate. -/
def plainLongLine : PyStr := List.replicate 50 'a'

/-- Forty mojibake characters: the stripped line has length 40, but after
`"Â"` is replaced by spaces and the line re-stripped it becomes empty. -/
def mojibakeLine : PyStr := List.replicate 40 'Â'

/-- A two-line text whose first line is all mojibake. -/
def mojibakeText : PyStr := mojibakeLine ++ '\n' :: plainLongLine

/-- A hot-listing submission that passes every filter of
`_retrieve_hot_posts`. -/
def samplePost : SubmissionM :=
  { post_hint := ""
    is_gallery := false
    is_video := false
    has_poll_data := false
    has_crosspost_parent := false
    is_self := true
    author_name := "alice"
    title := "Interesting result"
    url := "https://example.com/x"
    ups := 12
    upvote_ratio := 9 / 10
    id := "abc"
    selftext := "body"
    thumbnail := "self"
    permalink := "/r/test/abc"
    has_media := false
    media_reddit_video_fallback_url := none
    has_secure_media := false
    secure_media_reddit_video_fallback_url := none }

/-- The `RedditPost` built from `samplePost`. -/
def sampleRetrieved : RedditPostM :=
  buildRedditPost samplePost "text" (some "https://example.com/x")

/-! ## Helper lemmas -/

theorem mem_of_mem_pstrip {c : Char} {s : PyStr} (h : c ∈ pstrip s) : c ∈ s := by
  unfold pstrip at h
  rw [List.mem_reverse] at h
  have h2 := (List.dropWhile_sublist _).subset h
  rw [List.mem_reverse] at h2
  exact (List.dropWhile_sublist _).subset h2

theorem not_mem_replaceChar {a b : Char} (hba : b ≠ a) (s : PyStr) :
    a ∉ replaceChar a b s := by
  intro hmem
  unfold replaceChar at hmem
  rw [List.mem_map] at hmem
  obtain ⟨d, _, hd⟩ := hmem
  by_cases hda : d = a
  · rw [if_pos hda] at hd; exact hba hd
  · rw [if_neg hda] at hd; exact hda hd

theorem splitlines_newline_cons (rest : PyStr) :
    splitlines ('\n' :: rest) = [] :: splitlines rest := by
  cases rest with
  | nil => rfl
  | cons r rs =>
    show (if '\n' = '\r' ∧ r = '\n' then [] :: splitlines rs
      else if isLineBoundary '\n' then [] :: splitlines (r :: rs)
      else
        match splitlines (r :: rs) with
        | [] => [['\n']]
        | l :: ls => ('\n' :: l) :: ls) = [] :: splitlines (r :: rs)
    rw [if_neg (fun h => absurd h.1 (by decide)), if_pos (by decide)]

theorem splitlines_cons_not_boundary (c : Char) (s : PyStr)
    (hc : isLineBoundary c = false) :
    splitlines (c :: s) =
      match splitlines s with
      | [] => [[c]]
      | l :: ls => (c :: l) :: ls := by
  have hcr : c ≠ '\r' := fun h => by rw [h] at hc; exact absurd hc (by decide)
  cases s with
  | nil =>
    show (if isLineBoundary c then [[]] else [[c]]) = [[c]]
    rw [if_neg (by simp [hc])]
  | cons d ds =>
    show (if c = '\r' ∧ d = '\n' then [] :: splitlines ds
      else if isLineBoundary c then [] :: splitlines (d :: ds)
      else
        match splitlines (d :: ds) with
        | [] => [[c]]
        | l :: ls => (c :: l) :: ls) = _
    rw [if_neg (fun h => hcr h.1), if_neg (by simp [hc])]

theorem splitlines_append (x rest : PyStr)
    (hx : ∀ ch ∈ x, isLineBoundary ch = false) :
    splitlines (x ++ '\n' :: rest) = x :: splitlines rest := by
  induction x with
  | nil => rw [List.nil_append, splitlines_newline_cons]
  | cons c cs ih =>
    rw [List.cons_append,
      splitlines_cons_not_boundary c _ (hx c (List.mem_cons_self c cs)),
      ih (fun ch h => hx ch (List.mem_cons_of_mem c h))]

theorem splitlines_singleton (x : PyStr) (hne : x ≠ [])
    (hx : ∀ ch ∈ x, isLineBoundary ch = false) : splitlines x = [x] := by
  induction x with
  | nil => exact absurd rfl hne
  | cons c cs ih =>
    rw [splitlines_cons_not_boundary c cs (hx c (List.mem_cons_self c cs))]
    by_cases h : cs = []
    · subst h; rfl
    · rw [ih h (fun ch hm => hx ch (List.mem_cons_of_mem c hm))]

theorem splitlines_joinNL (ids : List PyStr)
    (h : ∀ x ∈ ids, x ≠ [] ∧ ∀ ch ∈ x, isLineBoundary ch = false) :
    splitlines (joinNL ids) = ids := by
  induction ids with
  | nil => rfl
  | cons x xs ih =>
    cases xs with
    | nil =>
      exact splitlines_singleton x (h x (List.mem_cons_self x [])).1
        (h x (List.mem_cons_self x [])).2
    | cons y ys =>
      have hx := h x (List.mem_cons_self x (y :: ys))
      rw [show joinNL (x :: y :: ys) = x ++ '\n' :: joinNL (y :: ys) from rfl,
        splitlines_append x (joinNL (y :: ys)) hx.2,
        ih (fun a ha => h a (List.mem_cons_of_mem x ha))]

example : splitlines ['a', '\n', 'b'] = [['a'], ['b']] := by decide
example : splitlines ['a', '\r', 'b'] = [['a'], ['b']] := by decide
example : splitlines ['a', '\r', '\n', 'b'] = [['a'], ['b']] := by decide
example : splitlines ['a', '\x0B', 'b', '\n'] = [['a'], ['b']] := by decide
example : splitlines [] = [] := by decide
example :
    ['a', '\r', 'b'] ∉
      load_old_arxiv_ids (save_arxiv_ids (fun _ => none) 0 [['a', '\r', 'b']]) 1 := by
  decide

theorem load_old_eq_flatMap (store : FileStore) (today : Int) :
    load_old_arxiv_ids store today =
      (List.range 7).flatMap (fun i => readDayIds store (today - ((i : Int) + 1))) := by
  have aux : ∀ (L : List Nat) (acc : List PyStr),
      L.foldl
        (fun (acc : List PyStr) (i : Nat) =>
          match store (today - ((i : Int) + 1)) with
          | some content => acc ++ splitlines content
          | none => acc)
        acc
      = acc ++ L.flatMap (fun i => readDayIds store (today - ((i : Int) + 1))) := by
    intro L
    induction L with
    | nil => intro acc; simp
    | cons j js ih =>
      intro acc
      rw [List.foldl_cons, List.flatMap_cons, ih]
      cases hst : store (today - ((j : Int) + 1)) with
      | none => simp [readDayIds, hst]
      | some content => simp [readDayIds, hst]
  unfold load_old_arxiv_ids
  rw [aux]
  rfl

theorem load_old_mem_iff (store : FileStore) (today : Int) (x : PyStr) :
    x ∈ load_old_arxiv_ids store today ↔
      ∃ i : Nat, 1 ≤ i ∧ i ≤ 7 ∧
        ∃ content, store (today - (i : Int)) = some content ∧ x ∈ splitlines content := by
  rw [load_old_eq_flatMap, List.mem_flatMap]
  constructor
  · rintro ⟨i, hi, hx⟩
    rw [List.mem_range] at hi
    refine ⟨i + 1, by omega, by omega, ?_⟩
    unfold readDayIds at hx
    have hcast : today - (((i + 1 : Nat) : Int)) = today - ((i : Int) + 1) := by
      push_cast; ring
    rw [hcast]
    cases hst : store (today - ((i : Int) + 1)) with
    | none => rw [hst] at hx; exact absurd hx (List.not_mem_nil x)
    | some content => rw [hst] at hx; exact ⟨content, rfl, hx⟩
  · rintro ⟨i, hi1, hi7, content, hst, hx⟩
    refine ⟨i - 1, by rw [List.mem_range]; omega, ?_⟩
    unfold readDayIds
    have heq : today - (((i - 1 : Nat) : Int) + 1) = today - (i : Int) := by
      have : ((i - 1 : Nat) : Int) = (i : Int) - 1 := by omega
      rw [this]; ring
    rw [heq, hst]
    exact hx

theorem is_valid_body_line_iff (line : PyStr) (min_length : Nat) :
    is_valid_body_line line min_length = true ↔
      listContainsSub ['@'] line = false ∧
      (∀ kw ∈ bodyLineKeywords, listContainsSub kw (plower line) = false) ∧
      min_length ≤ line.length ∧
      listContainsSub ['.'] line = true := by
  unfold is_valid_body_line
  split_ifs with h1 h2 h3 h4
  · simp only [false_iff]
    intro hc
    rw [hc.1] at h1
    exact Bool.false_ne_true h1
  · simp only [false_iff]
    rw [List.any_eq_true] at h2
    obtain ⟨kw, hkw, hp⟩ := h2
    intro hc
    rw [hc.2.1 kw hkw] at hp
    exact Bool.false_ne_true hp
  · simp only [false_iff]
    intro hc
    omega
  · simp only [false_iff]
    rw [Bool.not_eq_true'] at h4
    intro hc
    rw [hc.2.2.2] at h4
    exact absurd h4 (by simp)
  · simp only [true_iff]
    rw [Bool.not_eq_true] at h1
    rw [List.any_eq_true] at h2
    push_neg at h2
    rw [Bool.not_eq_true'] at h4
    refine ⟨h1, fun kw hkw => ?_, by omega, by simpa using h4⟩
    have := h2 kw hkw
    simpa using this

theorem findStartAux_eq_zero (m : Nat) (lines : List PyStr)
    (h : ∀ l ∈ lines, m ≤ (pstrip l).length → is_valid_body_line (pstrip l) 100 = false) :
    ∀ i, findStartAux m lines i = 0 := by
  induction lines with
  | nil => intro i; rfl
  | cons l ls ih =>
    intro i
    unfold findStartAux
    by_cases hlen : (pstrip l).length < m
    · rw [if_pos hlen]
      exact ih (fun a ha => h a (List.mem_cons_of_mem l ha)) (i + 1)
    · have hv := h l (List.mem_cons_self l ls) (Nat.le_of_not_lt hlen)
      rw [if_neg hlen, if_neg (by simp [hv]),
        ih (fun a ha => h a (List.mem_cons_of_mem l ha)) (i + 1)]

theorem findStartAux_first (m : Nat) (l : PyStr) (post : List PyStr)
    (hlen : m ≤ (pstrip l).length) (hval : is_valid_body_line (pstrip l) 100 = true) :
    ∀ (pre : List PyStr),
      (∀ l' ∈ pre, (pstrip l').length < m ∨ is_valid_body_line (pstrip l') 100 = false) →
      ∀ i, findStartAux m (pre ++ l :: post) i = i + pre.length := by
  intro pre
  induction pre with
  | nil =>
    intro _ i
    simp only [List.nil_append, findStartAux, if_neg (Nat.not_lt.mpr hlen), if_pos hval,
      List.length_nil, Nat.add_zero]
  | cons p ps ih =>
    intro hpre i
    rw [List.cons_append]
    unfold findStartAux
    have hrest := ih (fun a ha => hpre a (List.mem_cons_of_mem p ha)) (i + 1)
    rcases hpre p (List.mem_cons_self p ps) with hs | hv
    · rw [if_pos hs, hrest, List.length_cons]
      omega
    · by_cases hs : (pstrip p).length < m
      · rw [if_pos hs, hrest, List.length_cons]
        omega
      · rw [if_neg hs, if_neg (by simp [hv]), hrest, List.length_cons]
        omega

theorem completedResults_cons {α β : Type} (items : List α) (f : α → β) (j : Nat)
    (js : List Nat) :
    completedResults items f (j :: js) =
      match items.get? j with
      | some a => (j, f a) :: completedResults items f js
      | none => completedResults items f js := by
  unfold completedResults
  rw [List.filterMap_cons]
  cases items.get? j <;> rfl

theorem lookup_completedResults {α β : Type} (items : List α) (f : α → β)
    (order : List Nat) (i : Nat) (hi : i ∈ order) (hlen : i < items.length) :
    (completedResults items f order).lookup i = (items.get? i).map f := by
  induction order with
  | nil => exact absurd hi (List.not_mem_nil i)
  | cons j js ih =>
    rw [completedResults_cons]
    by_cases hji : j = i
    · subst hji
      obtain ⟨a, ha⟩ : ∃ a, items.get? j = some a := ⟨_, List.get?_eq_get hlen⟩
      rw [ha]
      simp [List.lookup]
    · have hi' : i ∈ js := List.mem_of_ne_of_mem (fun h => hji h.symm) hi
      cases ha : items.get? j with
      | none => exact ih hi'
      | some a =>
        have : (i == j) = false := by simp [hji]; exact fun h => hji h.symm
        simp [List.lookup, this, ih hi']

theorem range_filterMap_get {α β : Type} (items : List α) (f : α → β) :
    (List.range items.length).filterMap (fun i => (items.get? i).map f) =
      items.map f := by
  induction items with
  | nil => rfl
  | cons a l ih =>
    rw [List.length_cons, List.range_succ_eq_map, List.filterMap_cons]
    simp only [List.get?_cons_zero, Option.map_some']
    rw [List.filterMap_map]
    have hcomp :
        ((fun i => ((a :: l).get? i).map f) ∘ (· + 1)) =
          fun i => (l.get? i).map f := by
      funext i
      simp [Function.comp, List.get?_cons_succ]
    rw [hcomp, ih, List.map_cons]

/-! ## Claim theorems -/

/-- C1, counterexample: the qualification predicate does accept a line —
a 100-character line with a period, no `"@"` and no blacklisted keyword —
so the scan can move the start index away from 0: on
`[plainLongLine, qualifyingLine]` extraction begins at index 1 and the
40-character-passing line at index 0 is dropped from the output. -/
theorem body_start_scan_counterexample :
    is_valid_body_line qualifyingLine 100 = true ∧
    findStartAux 40 [plainLongLine, qualifyingLine] 0 = 1 ∧
    plainLongLine ∉ extract_body_lines 40 [plainLongLine, qualifyingLine] := by
  decide

/-- C1, amended: the body-start scan's qualification predicate accepts a
line exactly when its length is at least the threshold, it contains no
`"@"`, at least one `"."`, and none of the blacklisted keywords; the scan
starts extraction at index 0 only when no line passes both the minimum
length filter and the predicate, and otherwise at the index of the first
line that passes both. -/
theorem body_start_scan_spec :
    (∀ line : PyStr,
      is_valid_body_line line 100 = true ↔
        listContainsSub ['@'] line = false ∧
        (∀ kw ∈ bodyLineKeywords, listContainsSub kw (plower line) = false) ∧
        100 ≤ line.length ∧
        listContainsSub ['.'] line = true) ∧
    (∀ (m : Nat) (lines : List PyStr),
      (∀ l ∈ lines, m ≤ (pstrip l).length → is_valid_body_line (pstrip l) 100 = false) →
      findStartAux m lines 0 = 0) ∧
    (∀ (m : Nat) (pre : List PyStr) (l : PyStr) (post : List PyStr),
      (∀ l' ∈ pre, (pstrip l').length < m ∨ is_valid_body_line (pstrip l') 100 = false) →
      m ≤ (pstrip l).length → is_valid_body_line (pstrip l) 100 = true →
      findStartAux m (pre ++ l :: post) 0 = pre.length) := by
  refine ⟨fun line => is_valid_body_line_iff line 100,
    fun m lines h => findStartAux_eq_zero m lines h 0,
    fun m pre l post hpre hlen hval => ?_⟩
  rw [findStartAux_first m l post hlen hval pre hpre 0]
  omega

/-- C1, witness for the amended claim: on the concrete two-line input the
scan starts at index 1, the position of the first qualifying line. -/
theorem body_start_scan_spec_witness :
    findStartAux 40 ([plainLongLine] ++ qualifyingLine :: []) 0 = [plainLongLine].length :=
  body_start_scan_spec.2.2 40 [plainLongLine] qualifyingLine [] (by decide)
    (by decide) (by decide)

/-- C2: `_remove_duplicates` returns exactly the set difference — an
identifier is in the result iff it is among the candidates and not in the
history — and hence the result is a subset of the candidates. -/
theorem remove_duplicates_spec (candidates history : List PyStr) (x : PyStr) :
    x ∈ remove_duplicates candidates history ↔ x ∈ candidates ∧ x ∉ history := by
  simp [remove_duplicates, List.mem_dedup, List.mem_filter, List.elem_iff]

/-- C4, counterexample: a line of forty `"Â"` characters passes the
40-character filter, but after the mojibake replacement and final strip it
becomes the empty line, which reaches the output: the extractor's output
contains a line of length `0 < 40`. -/
theorem extract_short_line_counterexample :
    ([] : PyStr) ∈ extract_body_lines 40 (splitlines mojibakeText) ∧
    ([] : PyStr) ∈ splitlines (extract_body_text_from mojibakeText) ∧
    ([] : PyStr).length < 40 := by
  decide

/-- C4, amended: no output line of the extractor contains `"Â"`, and every
output line derives from an input line whose stripped length is at least
the threshold by stripping, replacing `"Â"` with a space, and stripping
again — but that final cleaning step can leave the output line itself
shorter than the threshold. -/
theorem extract_body_lines_sound (m : Nat) (lines : List PyStr) (out : PyStr)
    (hmem : out ∈ extract_body_lines m lines) :
    'Â' ∉ out ∧
    ∃ src ∈ lines, m ≤ (pstrip src).length ∧
      out = pstrip (replaceChar 'Â' ' ' (pstrip src)) := by
  unfold extract_body_lines at hmem
  rw [List.mem_filterMap] at hmem
  obtain ⟨src, hsrc, hout⟩ := hmem
  by_cases hlen : m ≤ (pstrip src).length
  · rw [if_pos hlen, Option.some.injEq] at hout
    refine ⟨?_, src, List.mem_of_mem_drop hsrc, hlen, hout.symm⟩
    intro hA
    rw [← hout] at hA
    exact not_mem_replaceChar (by decide) (pstrip src) (mem_of_mem_pstrip hA)
  · rw [if_neg hlen] at hout
    exact absurd hout (Option.noConfusion)

/-- C4, witness for the amended claim: the surviving 50-character line of
`mojibakeText` is in the output and contains no `"Â"`. -/
theorem extract_body_lines_sound_witness : 'Â' ∉ plainLongLine :=
  (extract_body_lines_sound 40 (splitlines mojibakeText) plainLongLine (by decide)).1

/-- C3, counterexample: persisting the empty identifier writes an empty
file (`"\n".join([""]) == ""`), and reading it back the next day splits to
no lines at all, so the persisted identifier is not surfaced. -/
theorem persist_load_counterexample :
    ([] : PyStr) ∉ load_old_arxiv_ids (save_arxiv_ids (fun _ => none) 0 [[]]) 1 ∧
    load_old_arxiv_ids (save_arxiv_ids (fun _ => none) 0 [([] : PyStr)]) 1 = [] := by
  decide

/-- C3, amended: for identifiers that are nonempty and contain no
line-boundary character — LF, CR, VT, FF, FS, GS, RS, NEL, LINE
SEPARATOR or PARAGRAPH SEPARATOR, the characters at which Python's
`splitlines` (after the universal-newline read translation) breaks the
file back into identifiers; every arXiv id satisfies this — persisting
for day `D` and loading on day `D + k` for any `1 ≤ k ≤ 7` surfaces
every persisted identifier. -/
theorem persist_load_roundtrip (store : FileStore) (today : Int) (ids : List PyStr)
    (k : Nat) (hk1 : 1 ≤ k) (hk7 : k ≤ 7)
    (hids : ∀ x ∈ ids, x ≠ [] ∧ ∀ ch ∈ x, isLineBoundary ch = false)
    (x : PyStr) (hx : x ∈ ids) :
    x ∈ load_old_arxiv_ids (save_arxiv_ids store today ids) (today + (k : Int)) := by
  rw [load_old_mem_iff]
  refine ⟨k, hk1, hk7, joinNL ids, ?_, ?_⟩
  · unfold save_arxiv_ids
    rw [if_pos (by ring)]
  · rw [splitlines_joinNL ids hids]
    exact hx

/-- C3, witness for the amended claim: two concrete ids persisted on day 0
are found again by the day-1 load. -/
theorem persist_load_roundtrip_witness :
    ['1'] ∈ load_old_arxiv_ids
        (save_arxiv_ids (fun _ => none) 0 [['1'], ['2']]) (0 + ((1 : Nat) : Int)) :=
  persist_load_roundtrip (fun _ => none) 0 [['1'], ['2']] 1 (by decide) (by decide)
    (by decide) ['1'] (by decide)

/-- C5: the fan-out driver returns the order-preserving map of the worker
function over the input, whatever order the pool completes the items in. -/
theorem fanOutRun_eq_map {α β : Type} (items : List α) (f : α → β) (order : List Nat)
    (hperm : order.Perm (List.range items.length)) :
    fanOutRun items f order = items.map f := by
  unfold fanOutRun
  rw [List.filterMap_congr (g := fun i => (items.get? i).map f) ?_, range_filterMap_get]
  intro i hi
  rw [List.mem_range] at hi
  exact lookup_completedResults items f order i (hperm.mem_iff.mpr (by
    rw [List.mem_range]; exact hi)) hi

/-- C5, witness: three items completed in the order 2, 0, 1 still produce
the in-order mapped outputs. -/
theorem fanOutRun_eq_map_witness :
    fanOutRun [10, 20, 30] (· + 1) [2, 0, 1] = List.map (· + 1) [10, 20, 30] :=
  fanOutRun_eq_map [10, 20, 30] (· + 1) [2, 0, 1] (by decide)

/-- C6: an identifier is in the loaded history iff some day `today - i`
with `1 ≤ i ≤ 7` has a file containing it — a missing day's file is
skipped, contributing nothing — and when no file exists at all the result
is empty. -/
theorem load_history_spec (store : FileStore) (today : Int) (x : PyStr) :
    (x ∈ load_old_arxiv_ids store today ↔
      ∃ i : Nat, 1 ≤ i ∧ i ≤ 7 ∧
        ∃ content, store (today - (i : Int)) = some content ∧ x ∈ splitlines content) ∧
    load_old_arxiv_ids (fun _ => none) today = [] := by
  refine ⟨load_old_mem_iff store today x, ?_⟩
  rw [load_old_eq_flatMap]
  simp [readDayIds]

/-- C7: the extractor never fails — it is a total function of the fetched
body — and a document with no body, or whose body holds only
header/nav/footer/script/style content, extracts to the empty string. -/
theorem extract_body_text_boilerplate (elems : List HtmlElement)
    (h : ∀ e ∈ elems, e.tag ∈ strippedTags) :
    extract_body_text (some elems) = [] ∧ extract_body_text none = [] := by
  constructor
  · have hfilter : elems.filter (fun e => !strippedTags.contains e.tag) = [] := by
      rw [List.filter_eq_nil_iff]
      intro e he
      simp only [Bool.not_eq_true', Bool.not_eq_true]
      rw [Bool.not_eq_false]
      exact List.elem_iff.mpr (h e he)
    have hdef : extract_body_text (some elems) =
        extract_body_text_from
          (get_text_strip (elems.filter (fun e => !strippedTags.contains e.tag))) := rfl
    rw [hdef, hfilter]
    rfl
  · rfl

/-- C7, witness: a body holding only a header and a script extracts to the
empty string. -/
theorem extract_body_text_boilerplate_witness :
    extract_body_text (some [⟨"header", ['H', 'i']⟩, ⟨"script", ['x']⟩]) = [] ∧
    extract_body_text none = [] :=
  extract_body_text_boilerplate [⟨"header", ['H', 'i']⟩, ⟨"script", ['x']⟩] (by decide)

/-- C8: the digest writer stores exactly the parts joined by the literal
separator as the complete content of the dated file, whatever was stored
there before; in particular writing `["A", "B"]` with separator `"---"`
over prior content and reading the path back yields exactly `"A---B"`. -/
theorem digest_write_spec (fs : String → Option String) (parts : List String)
    (path separator : String) :
    digest_write fs path separator parts path =
      some (String.intercalate separator parts) ∧
    paper_store_summaries fs "2024-01-01" parts (paper_summary_key "2024-01-01") =
      some (String.intercalate "\n\n---\n\n" parts) ∧
    digest_write (fun _ => some "OLD") "digests/2024-01-01.md" "---" ["A", "B"]
        "digests/2024-01-01.md" = some "A---B" := by
  refine ⟨?_, ?_, ?_⟩
  · simp [digest_write]
  · simp [paper_store_summaries, digest_write]
  · rfl

/-- C9: evaluation at the failing input — the entry points do not return
`statusCode 500` on a fault.  `paper_summarizer.lambda_handler` calls the
unimported `pprint` before its `try` block, so every invocation raises
`NameError`; `reddit_explorer.lambda_handler` reaches its `except` block
on a fault but then calls the unimported `traceback`, so the `NameError`
escapes instead of the 500 response.  Only the reddit success path
returns `statusCode 200` as claimed. -/
theorem lambda_handler_uncaught_nameerror (eventSource : Option String)
    (run : PyOutcome Unit) (e : String) :
    paper_lambda_handler eventSource run =
      PyOutcome.exc "NameError: name pprint is not defined" ∧
    reddit_lambda_handler (some "aws.events") (PyOutcome.exc e) =
      PyOutcome.exc "NameError: name traceback is not defined" ∧
    reddit_lambda_handler eventSource (PyOutcome.ok ()) = PyOutcome.ok 200 := by
  refine ⟨rfl, rfl, ?_⟩
  by_cases h : eventSource = some "aws.events"
  · subst h; rfl
  · unfold reddit_lambda_handler
    rw [if_neg (by decide), if_neg h]

/-- C10: every post returned by `_retrieve_hot_posts` was built from one
of the first `limit` submissions of the listing whose author is not
AutoModerator, whose title has no case-insensitive "megathread", whose
upvote ratio is at least 0.7, and whose judged type is none of
gallery/poll/crosspost; only the first `limit` submissions are considered
and at most `limit` posts are returned. -/
theorem retrieve_hot_posts_spec (listing : List SubmissionM) (limit : Nat) :
    retrieve_hot_posts listing limit = retrieve_hot_posts (listing.take limit) limit ∧
    (retrieve_hot_posts listing limit).length ≤ limit ∧
    ∀ rp ∈ retrieve_hot_posts listing limit,
      rp.type ∉ (["gallery", "poll", "crosspost"] : List String) ∧
      titleHasMegathread rp.title = false ∧
      ∃ post ∈ listing.take limit,
        post.author_name ≠ "AutoModerator" ∧
        titleHasMegathread post.title = false ∧
        (7 : ℚ) / 10 ≤ post.upvote_ratio ∧
        rp = buildRedditPost post (judge_post_type post)
          (if judge_post_type post = "video" then get_video_url post
           else some post.url) := by
  refine ⟨?_, ?_, ?_⟩
  · unfold retrieve_hot_posts
    rw [List.take_take, min_self]
  · exact le_trans (List.length_filterMap_le _ _) (List.length_take_le _ _)
  · intro rp hmem
    unfold retrieve_hot_posts at hmem
    rw [List.mem_filterMap] at hmem
    obtain ⟨post, hpost, heq⟩ := hmem
    dsimp only at heq
    split_ifs at heq with h1 h2 h3 h4 hv
    · rw [Option.some.injEq] at heq
      subst heq
      refine ⟨?_, ?_, post, hpost, h1, ?_, not_lt.mp h3, by rw [if_pos hv]⟩
      · intro htype
        exact h4 (List.elem_iff.mpr htype)
      · rw [Bool.not_eq_true] at h2
        exact h2
      · rw [Bool.not_eq_true] at h2
        exact h2
    · rw [Option.some.injEq] at heq
      subst heq
      refine ⟨?_, ?_, post, hpost, h1, ?_, not_lt.mp h3, by rw [if_neg hv]⟩
      · intro htype
        exact h4 (List.elem_iff.mpr htype)
      · rw [Bool.not_eq_true] at h2
        exact h2
      · rw [Bool.not_eq_true] at h2
        exact h2

theorem sample_ratio_ok : ¬(samplePost.upvote_ratio < (7 : ℚ) / 10) := by
  rw [show samplePost.upvote_ratio = 9 / 10 from rfl]
  norm_num

theorem sample_retrieve_eq : retrieve_hot_posts [samplePost] 10 = [sampleRetrieved] := by
  unfold retrieve_hot_posts
  rw [show List.take 10 [samplePost] = [samplePost] from rfl, List.filterMap_cons]
  dsimp only
  rw [if_neg (by decide), if_neg (by decide), if_neg sample_ratio_ok, if_neg (by decide),
    if_neg (by decide)]
  rfl

/-- C10, witness: the post retrieved from the sample listing has a
non-excluded type and a megathread-free title. -/
theorem retrieve_hot_posts_spec_witness :
    sampleRetrieved.type ∉ (["gallery", "poll", "crosspost"] : List String) ∧
    titleHasMegathread sampleRetrieved.title = false :=
  let h := (retrieve_hot_posts_spec [samplePost] 10).2.2 sampleRetrieved
    (sample_retrieve_eq ▸ List.mem_singleton_self sampleRetrieved)
  ⟨h.1, h.2.1⟩
